import Mathlib

/-!
Shallow embedding of `src/net.c` of the mdadm linear-device networking layer
(the client-side transport for the JBOD remote block-storage protocol), with
theorems checking the natural-language specification against the code.

Modelling conventions:
* Machine integers become `Nat` (with explicit `% 256` / big-endian byte
  splitting where the C code manipulates byte representations) or `Int`
  where the C value is a signed descriptor.
* The stream socket is modelled by an explicit trace: a list recording the
  result of each successive underlying `read` (resp. `write`) system call.
  A trace entry is either an error result (`-1` in C) or the chunk of bytes
  the call delivered (resp. the count it accepted).  In any run of the real
  system a delivered chunk is at most the requested size; the definitions do
  not need to enforce this, the loops add whatever count the call returns,
  exactly as the C code does with `r_byte += num`.
* A loop that would keep issuing system calls past the end of the given
  finite trace yields `none`: the computation has not returned within that
  trace.  `some` carries the returned value together with the unconsumed
  suffix of the trace, which makes "performs no further read" provable.
-/

/-- Result of one underlying `read` system call on the endpoint:
`err` models a `-1` return, `chunk d` models a call that delivered the
bytes `d` (so the C `num` is `d.length`; a `chunk []` is a zero-length
read, i.e. orderly peer shutdown). -/
inductive ReadRes where
  | err : ReadRes
  | chunk : List Nat → ReadRes
deriving DecidableEq, Repr

/-- Result of one underlying `write` system call: `err` models a `-1`
return, `ok k` models a call that accepted `k` bytes. -/
inductive WriteRes where
  | err : WriteRes
  | ok : Nat → WriteRes
deriving DecidableEq, Repr

/-- The loop of `nread` (net.c lines 20-36).  `len` is the requested byte
count, `acc` the bytes accumulated so far into the caller's buffer (the C
`r_byte` is `acc.length`).  While `r_byte < len` the C code calls `read`;
here that consumes the next trace entry.  On a `-1` result the C code
returns `false` — modelled as `some ((false, acc), rest)`, where `acc` are
the bytes already stored in the buffer prefix and `rest` the unconsumed
trace.  On success it returns `true` with the accumulated bytes.  If the
trace runs out while the guard still holds, the loop is still running:
`none`. -/
def nreadGo (len : Nat) (acc : List Nat) :
    List ReadRes → Option ((Bool × List Nat) × List ReadRes)
  | [] => if acc.length < len then none else some ((true, acc), [])
  | r :: rest =>
    if acc.length < len then
      match r with
      | ReadRes.err => some ((false, acc), rest)
      | ReadRes.chunk d => nreadGo len (acc ++ d) rest
    else
      some ((true, acc), r :: rest)

/-- `nread` (net.c lines 20-36): attempts to read `len` bytes, starting
with an empty accumulator. -/
def nread (len : Nat) (trace : List ReadRes) :
    Option ((Bool × List Nat) × List ReadRes) :=
  nreadGo len [] trace

/-- The loop of `nwrite` (net.c lines 41-53).  `w` is the C `w_byte`.
Same trace discipline as `nreadGo`. -/
def nwriteGo (len w : Nat) :
    List WriteRes → Option ((Bool × Nat) × List WriteRes)
  | [] => if w < len then none else some ((true, w), [])
  | r :: rest =>
    if w < len then
      match r with
      | WriteRes.err => some ((false, w), rest)
      | WriteRes.ok k => nwriteGo len (w + k) rest
    else
      some ((true, w), r :: rest)

/-- `nwrite` (net.c lines 41-53): attempts to write `len` bytes. -/
def nwrite (len : Nat) (trace : List WriteRes) :
    Option ((Bool × Nat) × List WriteRes) :=
  nwriteGo len 0 trace

/-- Modelled from the spec: `HEADER_LEN` is defined in a header file that is
not under `src/`; the spec fixes it — "header length = 5 bytes" (4-byte
big-endian opcode plus 1 status byte), consistently with `recv_packet`
parsing a 4-byte opcode and a 1-byte status out of one `HEADER_LEN` read
and with the 5 + 256 = 261 total of a write request. -/
def HEADER_LEN : Nat := 5

/-- Modelled from the spec: `JBOD_BLOCK_SIZE` is defined in `jbod.h`, not
under `src/`; the spec fixes the block size at 256 bytes. -/
def JBOD_BLOCK_SIZE : Nat := 256

/-- Modelled from the spec: `JBOD_WRITE_BLOCK` is the WRITE_BLOCK command
identifier from `jbod.h`, not under `src/`.  The spec does not fix its
numeric value and every claim only compares the extracted command field
against it, so any fixed value in the 6-bit range serves; 5 is the
conventional value of this enum constant. -/
def JBOD_WRITE_BLOCK : Nat := 5

/-- The command-field extraction of `send_packet` (net.c lines 113-116):
`bitmask = 0x3f << 12; cmd = (op & bitmask) >> 12`. -/
def cmdField (op : Nat) : Nat :=
  (op &&& (0x3f <<< 12)) >>> 12

/-- `htonl` applied to a 32-bit opcode, viewed as the 4 bytes it leaves in
memory: big-endian order. -/
def htonl (op : Nat) : List Nat :=
  [op / 2 ^ 24 % 256, op / 2 ^ 16 % 256, op / 2 ^ 8 % 256, op % 256]

/-- The byte sequence `send_packet` (net.c lines 110-138) hands to `nwrite`.
If the command field is `JBOD_WRITE_BLOCK` the packet is the 4 bytes of
`htonl op`, the status byte `ret = 2`, and 256 bytes copied from `block`,
and `HEADER_LEN + 256` bytes are sent.  Otherwise the code copies
`HEADER_LEN` (= 5) bytes from the 4-byte `t_op` object — the fifth byte
read is past the end of `t_op`, an indeterminate stack byte modelled by the
parameter `junk` — and sends `HEADER_LEN` bytes. -/
def send_packet (op : Nat) (block : List Nat) (junk : Nat) : List Nat :=
  let t_op := htonl op
  if cmdField op = JBOD_WRITE_BLOCK then
    t_op ++ [2] ++ block.take 256
  else
    t_op ++ [junk]

/-- The part of `recv_packet` after a successful header read (net.c lines
84-98): `ret` is the status byte `packet[4]`, `opBytes` the raw 4 bytes
`memcpy`ed into `*op`, `block0` the caller's block buffer contents and
`rest` the trace remaining past the header.  If status bit 0 is set the
function returns false at once; else if bit 1 is set it runs one more
`nread` of `JBOD_BLOCK_SIZE` bytes into the caller's buffer (the bytes
that `nread` stored overwrite the buffer prefix) and its result decides
the outcome; otherwise it returns true. -/
def recvBlockStep (ret : Nat) (opBytes block0 : List Nat)
    (rest : List ReadRes) :
    Option (Bool × Option (List Nat × Nat) × List Nat × List ReadRes) :=
  if ret &&& 1 ≠ 0 then
    some (false, some (opBytes, ret), block0, rest)
  else if ret &&& 2 ≠ 0 then
    match nread JBOD_BLOCK_SIZE rest with
    | none => none
    | some ((ok, acc), rest2) =>
      some (ok, some (opBytes, ret), acc ++ block0.drop acc.length, rest2)
  else
    some (true, some (opBytes, ret), block0, rest)

/-- `recv_packet` (net.c lines 69-99).  Inputs: the read trace of the
endpoint and the caller's block buffer contents `block0`.  Output on
return: the boolean result, the data stored through the `op` and `ret`
pointers (`none` when the header read failed before storing them — the raw
4 bytes `memcpy`ed into `*op`, and the status byte), the final contents of
the caller's block buffer, and the unconsumed trace.  `none` if a transfer
loop never returns within the trace. -/
def recv_packet (trace : List ReadRes) (block0 : List Nat) :
    Option (Bool × Option (List Nat × Nat) × List Nat × List ReadRes) :=
  match nread HEADER_LEN trace with
  | none => none
  | some ((false, _), rest) => some (false, none, block0, rest)
  | some ((true, packet), rest) =>
    recvBlockStep (packet.getD 4 0) (packet.take 4) block0 rest

/-- The value a 4-byte `memcpy` into a `uint32_t` produces on the target
platform (x86-64 Linux, little-endian): the little-endian interpretation
of the copied bytes.  This is what net.c line 80 stores into `*op`. -/
def hostU32 (bs : List Nat) : Nat :=
  bs.getD 0 0 + bs.getD 1 0 * 2 ^ 8 + bs.getD 2 0 * 2 ^ 16 + bs.getD 3 0 * 2 ^ 24

/-- The big-endian (network-order) value of 4 wire bytes: the value a
big-endian-to-host conversion (`ntohl`) of the received bytes would yield
on any host. -/
def beU32 (bs : List Nat) : Nat :=
  bs.getD 0 0 * 2 ^ 24 + bs.getD 1 0 * 2 ^ 16 + bs.getD 2 0 * 2 ^ 8 + bs.getD 3 0

/-- `jbod_connect` (net.c lines 145-169), with the environment explicit:
`cli_sd0` is the global `cli_sd` before the call, `atonOk` the success of
`inet_aton`, `sockFd` the return of `socket` (`-1` on failure), and
`connectOk` the success of `connect`.  Returns the boolean result paired
with the value of the global `cli_sd` after the call.  The code assigns
`cli_sd = socket(...)` before any of the later checks. -/
def jbod_connect (cli_sd0 : Int) (atonOk : Bool) (sockFd : Int)
    (connectOk : Bool) : Bool × Int :=
  if atonOk = false then (false, cli_sd0)
  else if sockFd = -1 then (false, sockFd)
  else if connectOk = false then (false, sockFd)
  else (true, sockFd)

example : nread 3 [ReadRes.chunk [1, 2], ReadRes.chunk [3]] =
    some ((true, [1, 2, 3]), []) := by decide

example : nread 3 [ReadRes.chunk [1], ReadRes.err, ReadRes.chunk [9]] =
    some ((false, [1]), [ReadRes.chunk [9]]) := by decide

example : nread 2 [ReadRes.chunk [], ReadRes.chunk []] = none := by decide

example : nwrite 4 [WriteRes.ok 1, WriteRes.ok 3] = some ((true, 4), []) := by
  decide

example : send_packet 0 [] 0 = [0, 0, 0, 0, 0] := by decide

example : cmdField (5 <<< 12) = 5 := by decide

example :
    recv_packet [ReadRes.chunk [0, 0, 0, 1, 3]] [7, 7] =
      some (false, some ([0, 0, 0, 1], 3), [7, 7], []) := by decide

/-! ## Reliable byte transfer: helper lemmas -/

theorem nreadGo_chunks_exact (len : Nat) :
    ∀ (chunks : List (List Nat)) (acc : List Nat),
      (∀ d ∈ chunks, d ≠ []) →
      acc.length + (chunks.map List.length).sum = len →
      nreadGo len acc (chunks.map ReadRes.chunk) =
        some ((true, acc ++ chunks.flatten), []) := by
  intro chunks
  induction chunks with
  | nil =>
    intro acc _ hsum
    simp at hsum
    simp [nreadGo, hsum]
  | cons d rest ih =>
    intro acc hne hsum
    have hd : d ≠ [] := hne d (by simp)
    have hdpos : 0 < d.length := List.length_pos.mpr hd
    have hlt : acc.length < len := by
      simp [List.map_cons, List.sum_cons] at hsum
      omega
    have hrec := ih (acc ++ d) (fun x hx => hne x (by simp [hx]))
      (by simp [List.map_cons, List.sum_cons] at hsum ⊢; omega)
    simp only [List.map_cons, nreadGo, if_pos hlt]
    rw [hrec]
    simp [List.append_assoc]

theorem nwriteGo_ok_exact (len : Nat) :
    ∀ (ks : List Nat) (w : Nat),
      (∀ k ∈ ks, 0 < k) → w + ks.sum = len →
      nwriteGo len w (ks.map WriteRes.ok) = some ((true, len), []) := by
  intro ks
  induction ks with
  | nil =>
    intro w _ hsum
    simp at hsum
    simp [nwriteGo, hsum]
  | cons k rest ih =>
    intro w hpos hsum
    have hk : 0 < k := hpos k (by simp)
    have hlt : w < len := by
      simp [List.sum_cons] at hsum
      omega
    have hrec := ih (w + k) (fun x hx => hpos x (by simp [hx]))
      (by simp [List.sum_cons] at hsum ⊢; omega)
    simp only [List.map_cons, nwriteGo, if_pos hlt]
    exact hrec

theorem nreadGo_err_after_chunks (len : Nat) :
    ∀ (chunks : List (List Nat)) (acc : List Nat) (rest : List ReadRes),
      acc.length + (chunks.map List.length).sum < len →
      nreadGo len acc (chunks.map ReadRes.chunk ++ ReadRes.err :: rest) =
        some ((false, acc ++ chunks.flatten), rest) := by
  intro chunks
  induction chunks with
  | nil =>
    intro acc rest hlt
    simp at hlt
    simp [nreadGo, hlt]
  | cons d rtl ih =>
    intro acc rest hlt
    have hlt2 : acc.length < len := by
      simp [List.map_cons, List.sum_cons] at hlt
      omega
    have hrec := ih (acc ++ d) rest
      (by simp [List.map_cons, List.sum_cons] at hlt ⊢; omega)
    simp only [List.map_cons, List.cons_append, nreadGo, if_pos hlt2,
      List.append_eq]
    rw [hrec]
    simp [List.append_assoc]

theorem nwriteGo_err_after_ok (len : Nat) :
    ∀ (ks : List Nat) (w : Nat) (rest : List WriteRes),
      w + ks.sum < len →
      nwriteGo len w (ks.map WriteRes.ok ++ WriteRes.err :: rest) =
        some ((false, w + ks.sum), rest) := by
  intro ks
  induction ks with
  | nil =>
    intro w rest hlt
    simp at hlt
    simp [nwriteGo, hlt]
  | cons k rtl ih =>
    intro w rest hlt
    have hlt2 : w < len := by
      simp [List.sum_cons] at hlt
      omega
    have hrec := ih (w + k) rest (by simp [List.sum_cons] at hlt ⊢; omega)
    simp only [List.map_cons, List.cons_append, nwriteGo, if_pos hlt2,
      List.append_eq]
    rw [hrec]
    simp [List.sum_cons]
    omega

theorem nreadGo_zero_chunks (len : Nat) :
    ∀ (n : Nat) (acc : List Nat), acc.length < len →
      nreadGo len acc (List.replicate n (ReadRes.chunk [])) = none := by
  intro n
  induction n with
  | zero =>
    intro acc hlt
    simp [nreadGo, hlt]
  | succ m ih =>
    intro acc hlt
    simp only [List.replicate_succ, nreadGo, if_pos hlt]
    have := ih acc hlt
    simpa using this

/-! ## Claims about the reliable byte transfer loops -/

/-- C8: for every byte count `L` and every sequence of partial completion
results that are each positive (no error) and sum to `L`, the `nread` loop
and the `nwrite` loop accumulate the transferred count and return success
having moved exactly `L` bytes, consuming the whole trace. -/
theorem transfer_loops_deliver_exact_total (L : Nat)
    (chunks : List (List Nat)) (ks : List Nat)
    (hcpos : ∀ d ∈ chunks, 0 < d.length)
    (hcsum : (chunks.map List.length).sum = L)
    (hkpos : ∀ k ∈ ks, 0 < k) (hksum : ks.sum = L) :
    nread L (chunks.map ReadRes.chunk) = some ((true, chunks.flatten), []) ∧
    chunks.flatten.length = L ∧
    nwrite L (ks.map WriteRes.ok) = some ((true, L), []) := by
  refine ⟨?_, ?_, ?_⟩
  · have h := nreadGo_chunks_exact L chunks []
      (fun d hd => List.length_pos.mp (hcpos d hd)) (by simpa using hcsum)
    simpa [nread] using h
  · simpa [List.length_flatten] using hcsum
  · have h := nwriteGo_ok_exact L ks 0 hkpos (by simpa using hksum)
    simpa [nwrite] using h

/-- Witness for C8 at a concrete split: 3 bytes delivered as 2 + 1. -/
theorem transfer_loops_deliver_exact_total_witness :
    nread 3 ([[10, 11], [12]].map ReadRes.chunk) =
      some ((true, [[10, 11], [12]].flatten), []) ∧
    ([[10, 11], [12]] : List (List Nat)).flatten.length = 3 ∧
    nwrite 3 ([2, 1].map WriteRes.ok) = some ((true, 3), []) :=
  transfer_loops_deliver_exact_total 3 [[10, 11], [12]] [2, 1]
    (by decide) (by decide) (by decide) (by decide)

/-- C9: if any single underlying transfer call reports an error, `nread`
and `nwrite` immediately return failure for the whole operation — no
retry (everything after the failing call is left unconsumed) and no claim
of success, regardless of how many bytes were already moved. -/
theorem transfer_loops_fail_on_first_error (L : Nat)
    (chunks : List (List Nat)) (ks : List Nat)
    (rrest : List ReadRes) (wrest : List WriteRes)
    (hc : (chunks.map List.length).sum < L) (hk : ks.sum < L) :
    nread L (chunks.map ReadRes.chunk ++ ReadRes.err :: rrest) =
      some ((false, chunks.flatten), rrest) ∧
    nwrite L (ks.map WriteRes.ok ++ WriteRes.err :: wrest) =
      some ((false, ks.sum), wrest) := by
  constructor
  · have h := nreadGo_err_after_chunks L chunks [] rrest (by simpa using hc)
    simpa [nread] using h
  · have h := nwriteGo_err_after_ok L ks 0 wrest (by simpa using hk)
    simpa [nwrite] using h

/-- Witness for C9: 3 of 4 requested bytes arrive, then an error; the
loops fail at once, leaving the rest of the trace unconsumed. -/
theorem transfer_loops_fail_on_first_error_witness :
    nread 4 ([[1], [2, 3]].map ReadRes.chunk ++
        ReadRes.err :: [ReadRes.chunk [9]]) =
      some ((false, [[1], [2, 3]].flatten), [ReadRes.chunk [9]]) ∧
    nwrite 4 ([2].map WriteRes.ok ++ WriteRes.err :: [WriteRes.ok 2]) =
      some ((false, ([2] : List Nat).sum), [WriteRes.ok 2]) :=
  transfer_loops_fail_on_first_error 4 [[1], [2, 3]] [2]
    [ReadRes.chunk [9]] [WriteRes.ok 2] (by decide) (by decide)

/-- C4: the code at the failing input.  When the peer closed cleanly,
every further `read` returns zero bytes; for any requested `len > 0` the
`nread` loop has still not returned after `n` such zero-length reads, for
every `n` — it loops forever instead of returning the defined failure the
spec requires. -/
theorem nread_zero_reads_never_returns (len n : Nat) (h : 0 < len) :
    nread len (List.replicate n (ReadRes.chunk [])) = none := by
  have hz := nreadGo_zero_chunks len n [] (by simpa using h)
  simpa [nread] using hz

/-- Witness for C4: requesting 1 byte against three zero-length reads, the
loop has not returned. -/
theorem nread_zero_reads_never_returns_witness :
    nread 1 (List.replicate 3 (ReadRes.chunk [])) = none :=
  nread_zero_reads_never_returns 1 3 (by decide)

/-! ## Claims about the packet encoder -/

/-- C1: counterexample.  Opcode 0 has command field 0, which differs from
`JBOD_WRITE_BLOCK`, yet the request `send_packet` hands to `nwrite` is 5
bytes long, not 4: the code copies and sends `HEADER_LEN` bytes on the
non-write path (net.c lines 133 and 135). -/
theorem send_packet_non_write_not_four_bytes :
    cmdField 0 ≠ JBOD_WRITE_BLOCK ∧ (send_packet 0 [] 0).length ≠ 4 := by
  decide

/-- C1 (amended): for every opcode whose command field differs from
`JBOD_WRITE_BLOCK`, `send_packet` emits exactly `HEADER_LEN` = 5 bytes —
the 4-byte big-endian opcode followed by one indeterminate byte copied
from past the end of the 4-byte opcode object — with no status byte set
deliberately and no block appended. -/
theorem send_packet_non_write_five_bytes (op junk : Nat) (block : List Nat)
    (h : cmdField op ≠ JBOD_WRITE_BLOCK) :
    send_packet op block junk = htonl op ++ [junk] ∧
    (send_packet op block junk).length = HEADER_LEN := by
  constructor
  · simp [send_packet, h]
  · simp [send_packet, h, htonl, HEADER_LEN]

/-- Witness for C1 (amended) at opcode 0 with stack byte 7. -/
theorem send_packet_non_write_five_bytes_witness :
    send_packet 0 [] 7 = htonl 0 ++ [7] ∧
    (send_packet 0 [] 7).length = HEADER_LEN :=
  send_packet_non_write_five_bytes 0 7 [] (by decide)

/-- C5: for every opcode whose command field equals `JBOD_WRITE_BLOCK` and
every 256-byte block, `send_packet` emits exactly 261 bytes: the 4-byte
big-endian opcode, then a status byte equal to 2, then the 256 block bytes
unmodified, in that order. -/
theorem send_packet_write_block_framing (op junk : Nat) (block : List Nat)
    (hc : cmdField op = JBOD_WRITE_BLOCK) (hb : block.length = 256) :
    send_packet op block junk = htonl op ++ [2] ++ block ∧
    (send_packet op block junk).length = 261 := by
  have ht : block.take 256 = block := List.take_of_length_le (by omega)
  constructor
  · simp [send_packet, hc, ht]
  · simp [send_packet, hc, ht, htonl, hb]

/-- Witness for C5: the WRITE_BLOCK command placed in bits 12-17 with an
all-0xAA block (the spec's scenario C). -/
theorem send_packet_write_block_framing_witness :
    send_packet 20480 (List.replicate 256 170) 0 =
      htonl 20480 ++ [2] ++ List.replicate 256 170 ∧
    (send_packet 20480 (List.replicate 256 170) 0).length = 261 :=
  send_packet_write_block_framing 20480 0 (List.replicate 256 170)
    (by decide) (by rw [List.length_replicate])

/-! ## Packet decoder: helper lemmas -/

theorem recv_packet_of_header (trace rest : List ReadRes)
    (hdr block0 : List Nat)
    (hh : nread HEADER_LEN trace = some ((true, hdr), rest)) :
    recv_packet trace block0 =
      recvBlockStep (hdr.getD 4 0) (hdr.take 4) block0 rest := by
  unfold recv_packet
  rw [hh]

theorem recvBlockStep_bit0 (ret : Nat) (opBytes block0 : List Nat)
    (rest : List ReadRes) (h1 : ret &&& 1 ≠ 0) :
    recvBlockStep ret opBytes block0 rest =
      some (false, some (opBytes, ret), block0, rest) := by
  unfold recvBlockStep
  rw [if_pos h1]

theorem recvBlockStep_no_block (ret : Nat) (opBytes block0 : List Nat)
    (rest : List ReadRes) (h1 : ret &&& 1 = 0) (h2 : ret &&& 2 = 0) :
    recvBlockStep ret opBytes block0 rest =
      some (true, some (opBytes, ret), block0, rest) := by
  unfold recvBlockStep
  rw [if_neg (not_not_intro h1), if_neg (not_not_intro h2)]

theorem recvBlockStep_block (ret : Nat) (opBytes block0 acc : List Nat)
    (rest rest2 : List ReadRes) (ok : Bool)
    (h1 : ret &&& 1 = 0) (h2 : ret &&& 2 ≠ 0)
    (hbr : nread JBOD_BLOCK_SIZE rest = some ((ok, acc), rest2)) :
    recvBlockStep ret opBytes block0 rest =
      some (ok, some (opBytes, ret),
        acc ++ block0.drop acc.length, rest2) := by
  unfold recvBlockStep
  rw [if_neg (not_not_intro h1), if_pos h2, hbr]

theorem recvBlockStep_block_none (ret : Nat) (opBytes block0 : List Nat)
    (rest : List ReadRes) (h1 : ret &&& 1 = 0) (h2 : ret &&& 2 ≠ 0)
    (hbr : nread JBOD_BLOCK_SIZE rest = none) :
    recvBlockStep ret opBytes block0 rest = none := by
  unfold recvBlockStep
  rw [if_neg (not_not_intro h1), if_pos h2, hbr]

/-! ## Claims about the packet decoder -/

/-- C6: for every response whose status byte has bit 0 set — including
status 3, where bit 1 is also set — `recv_packet` returns failure
immediately after the 5-byte header: the trace beyond the header is left
untouched (no further read) and the caller's block buffer is unchanged;
bit 0 is checked before bit 1. -/
theorem recv_packet_bit0_fails_no_read (trace rest : List ReadRes)
    (hdr block0 : List Nat)
    (hh : nread HEADER_LEN trace = some ((true, hdr), rest))
    (hbit : hdr.getD 4 0 &&& 1 ≠ 0) :
    recv_packet trace block0 =
      some (false, some (hdr.take 4, hdr.getD 4 0), block0, rest) := by
  rw [recv_packet_of_header trace rest hdr block0 hh,
    recvBlockStep_bit0 _ _ _ _ hbit]

/-- Witness for C6: status byte 3 (error + block-present); the pending
block-sized chunk after the header is never read. -/
theorem recv_packet_bit0_fails_no_read_witness :
    recv_packet [ReadRes.chunk [0, 0, 0, 1, 3], ReadRes.chunk [1, 2]] [9] =
      some (false, some ([0, 0, 0, 1], 3), [9], [ReadRes.chunk [1, 2]]) :=
  recv_packet_bit0_fails_no_read
    [ReadRes.chunk [0, 0, 0, 1, 3], ReadRes.chunk [1, 2]]
    [ReadRes.chunk [1, 2]] [0, 0, 0, 1, 3] [9] (by decide) (by decide)

/-- C7: for every response whose status byte has bit 0 clear and bit 1
set, `recv_packet` performs exactly one additional 256-byte read into the
caller's buffer: if that read succeeds delivering the 256 bytes `D`, the
decode succeeds returning `D` unmodified with exactly that read consumed;
if that read fails, the whole decode fails. -/
theorem recv_packet_bit1_block_read (trace rest rest2 rest3 : List ReadRes)
    (hdr block0 D acc : List Nat)
    (hh : nread HEADER_LEN trace = some ((true, hdr), rest))
    (hb0 : hdr.getD 4 0 &&& 1 = 0) (hb1 : hdr.getD 4 0 &&& 2 ≠ 0)
    (hlen : block0.length = 256) :
    (nread JBOD_BLOCK_SIZE rest = some ((true, D), rest2) → D.length = 256 →
      recv_packet trace block0 =
        some (true, some (hdr.take 4, hdr.getD 4 0), D, rest2)) ∧
    (nread JBOD_BLOCK_SIZE rest = some ((false, acc), rest3) →
      recv_packet trace block0 =
        some (false, some (hdr.take 4, hdr.getD 4 0),
          acc ++ block0.drop acc.length, rest3)) := by
  constructor
  · intro hbr hD
    have hdrop : block0.drop D.length = [] :=
      List.drop_eq_nil_of_le (by omega)
    rw [recv_packet_of_header trace rest hdr block0 hh,
      recvBlockStep_block _ _ _ _ _ _ _ hb0 hb1 hbr, hdrop,
      List.append_nil]
  · intro hbr
    rw [recv_packet_of_header trace rest hdr block0 hh,
      recvBlockStep_block _ _ _ _ _ _ _ hb0 hb1 hbr]

set_option maxRecDepth 8192 in
/-- Witness for C7: status byte 2, followed by one read delivering 256
bytes of 0xAA; the decode succeeds and the buffer holds exactly them. -/
theorem recv_packet_bit1_block_read_witness :
    recv_packet [ReadRes.chunk [0, 0, 0, 1, 2],
        ReadRes.chunk (List.replicate 256 170)] (List.replicate 256 0) =
      some (true, some ([0, 0, 0, 1], 2), List.replicate 256 170, []) :=
  (recv_packet_bit1_block_read
    [ReadRes.chunk [0, 0, 0, 1, 2], ReadRes.chunk (List.replicate 256 170)]
    [ReadRes.chunk (List.replicate 256 170)] [] []
    [0, 0, 0, 1, 2] (List.replicate 256 0) (List.replicate 256 170) []
    (by decide) (by decide) (by decide)
    (by rw [List.length_replicate])).1 (by decide)
    (by rw [List.length_replicate])

/-- C10: whenever the received status byte has bit 1 clear — on the bit-0
protocol-failure path and on the success-with-no-block path alike —
`recv_packet` leaves the caller's block buffer unchanged (and reads
nothing beyond the header). -/
theorem recv_packet_bit1_clear_block_unchanged (trace rest : List ReadRes)
    (hdr block0 : List Nat)
    (hh : nread HEADER_LEN trace = some ((true, hdr), rest))
    (hb1 : hdr.getD 4 0 &&& 2 = 0) :
    recv_packet trace block0 =
      some ((hdr.getD 4 0 &&& 1 == 0),
        some (hdr.take 4, hdr.getD 4 0), block0, rest) := by
  rw [recv_packet_of_header trace rest hdr block0 hh]
  by_cases hb0 : hdr.getD 4 0 &&& 1 = 0
  · have hb : (hdr.getD 4 0 &&& 1 == 0) = true := by simpa using hb0
    rw [recvBlockStep_no_block _ _ _ _ hb0 hb1, hb]
  · have hb : (hdr.getD 4 0 &&& 1 == 0) = false := by simpa using hb0
    rw [recvBlockStep_bit0 _ _ _ _ hb0, hb]

/-- Witness for C10 on the success-no-block path: status byte 0, buffer
contents [1, 2, 3] survive untouched. -/
theorem recv_packet_bit1_clear_block_unchanged_witness :
    recv_packet [ReadRes.chunk [0, 0, 0, 0, 0], ReadRes.chunk [5]]
        [1, 2, 3] =
      some (true, some ([0, 0, 0, 0], 0), [1, 2, 3], [ReadRes.chunk [5]]) :=
  recv_packet_bit1_clear_block_unchanged
    [ReadRes.chunk [0, 0, 0, 0, 0], ReadRes.chunk [5]]
    [ReadRes.chunk [5]] [0, 0, 0, 0, 0] [1, 2, 3] (by decide) (by decide)

/-- C3: counterexample.  The peer sends header bytes [0, 0, 0, 1, 0]
(big-endian opcode 1, status 0); `recv_packet` succeeds and stores the raw
bytes into `*op` by `memcpy` with no byte-order conversion, so on the
little-endian target the stored value is `hostU32 [0,0,0,1]` = 16777216,
not the big-endian-to-host converted value `beU32 [0,0,0,1]` = 1. -/
theorem recv_packet_opcode_not_converted :
    recv_packet [ReadRes.chunk [0, 0, 0, 1, 0]] [] =
      some (true, some ([0, 0, 0, 1], 0), [], []) ∧
    hostU32 [0, 0, 0, 1] ≠ beU32 [0, 0, 0, 1] := by
  decide

/-- C3 (amended): for every successfully read response header,
`recv_packet` stores into the caller's opcode output the first 4 received
header bytes verbatim — a raw `memcpy`, with no big-endian-to-host
conversion applied — so the value `*op` holds on the little-endian target
is `hostU32` of the wire bytes. -/
theorem recv_packet_opcode_raw_bytes (trace rest rest2 : List ReadRes)
    (hdr block0 blk : List Nat) (b : Bool)
    (meta : Option (List Nat × Nat))
    (hh : nread HEADER_LEN trace = some ((true, hdr), rest))
    (hr : recv_packet trace block0 = some (b, meta, blk, rest2)) :
    meta = some (hdr.take 4, hdr.getD 4 0) := by
  rw [recv_packet_of_header trace rest hdr block0 hh] at hr
  by_cases h1 : hdr.getD 4 0 &&& 1 = 0
  · by_cases h2 : hdr.getD 4 0 &&& 2 = 0
    · rw [recvBlockStep_no_block _ _ _ _ h1 h2] at hr
      simp only [Option.some.injEq, Prod.mk.injEq] at hr
      exact hr.2.1.symm
    · cases hbr : nread JBOD_BLOCK_SIZE rest with
      | none =>
        rw [recvBlockStep_block_none _ _ _ _ h1 h2 hbr] at hr
        exact Option.noConfusion hr
      | some v =>
        obtain ⟨⟨ok, acc⟩, r2⟩ := v
        rw [recvBlockStep_block _ _ _ _ _ _ _ h1 h2 hbr] at hr
        simp only [Option.some.injEq, Prod.mk.injEq] at hr
        exact hr.2.1.symm
  · rw [recvBlockStep_bit0 _ _ _ _ h1] at hr
    simp only [Option.some.injEq, Prod.mk.injEq] at hr
    exact hr.2.1.symm

/-- Witness for C3 (amended): header [1, 2, 3, 4, 9]; the opcode output
holds the raw bytes [1, 2, 3, 4]. -/
theorem recv_packet_opcode_raw_bytes_witness :
    (some ([1, 2, 3, 4], 9) : Option (List Nat × Nat)) =
      some (([1, 2, 3, 4, 9] : List Nat).take 4,
        ([1, 2, 3, 4, 9] : List Nat).getD 4 0) :=
  recv_packet_opcode_raw_bytes [ReadRes.chunk [1, 2, 3, 4, 9]] [] []
    [1, 2, 3, 4, 9] [] [] false (some ([1, 2, 3, 4], 9))
    (by decide) (by decide)

/-! ## Claims about the connection manager -/

/-- C2: counterexample.  With a well-formed address, `socket` returning
descriptor 3 and the connect step failing (no listener), `jbod_connect`
returns failure but the global `cli_sd` now holds 3 — not the unconnected
sentinel -1. -/
theorem jbod_connect_fail_leaves_fd :
    jbod_connect (-1) true 3 false = (false, 3) ∧ (3 : Int) ≠ -1 := by
  decide

/-- C2 (amended): when the connect step fails after socket creation
succeeded, `jbod_connect` returns failure with the global `cli_sd` left
holding the newly created socket descriptor rather than -1; the prior
value of `cli_sd` survives only when address parsing fails, before any
socket is created. -/
theorem jbod_connect_fail_state (cli_sd0 sockFd : Int) (c : Bool)
    (h : sockFd ≠ -1) :
    jbod_connect cli_sd0 true sockFd false = (false, sockFd) ∧
    jbod_connect cli_sd0 false sockFd c = (false, cli_sd0) := by
  constructor
  · simp [jbod_connect, h]
  · simp [jbod_connect]

/-- Witness for C2 (amended) with prior state -1 and descriptor 3. -/
theorem jbod_connect_fail_state_witness :
    jbod_connect (-1) true 3 false = (false, 3) ∧
    jbod_connect (-1) false 3 true = (false, -1) :=
  jbod_connect_fail_state (-1) 3 true (by decide)
